import Mathlib

/-!
Verification of the webbot compiler/cache pipeline of `joyboy_AI.py`.

The Python module is shallowly embedded below:

* Python `str` primitives (`strip`, `lower`, `split`, substring search) are
  modelled on `List Char` / `String` for the ASCII fragment the program uses.
* Each `re` pattern appearing in the source is embedded as an explicit
  left-to-right scanner with the same leftmost-match and greedy/lazy
  backtracking behaviour as the Python `re` engine on that pattern.
* The SQLite table `tasks` is modelled as a list of rows (`task_text` is
  declared UNIQUE; `INSERT OR REPLACE` deletes conflicting rows and appends
  the fresh one, evaluating the `COALESCE((SELECT ...))` carry-forward
  expressions against the pre-insert table, as SQLite does).
* The generated-scripts directory is modelled as an association list from
  file name to file contents, `open(path, "w")` overwriting in place.
* The Selenium driver is modelled by a `Page` record giving, for each of the
  seven locator strategies of the generated `find_element_fuzzy`, the result
  of `driver.find_element` with that strategy (`none` models a raised
  `NoSuchElementException`).
-/

namespace JoyboyAI

/-- Characters treated as whitespace by Python's `str.strip`/`str.split`/`\s`
(ASCII fragment). -/
def isPySpace (c : Char) : Bool :=
  c = ' ' || c = '\t' || c = '\n' || c = '\x0d' || c = '\x0b' || c = '\x0c'

/-- Python `str.strip()` (ASCII whitespace). -/
def pyStrip (s : String) : String :=
  ⟨((s.data.dropWhile isPySpace).reverse.dropWhile isPySpace).reverse⟩

/-- Python `str.lower()` (the source only feeds it ASCII text). -/
def pyLower (s : String) : String :=
  ⟨s.data.map Char.toLower⟩

/-- One step of Python `str.split()` with no argument: splits on runs of
whitespace and drops empty pieces. -/
def pySplitWsGo (acc : List Char) (cs : List Char) : List (List Char) :=
  match cs with
  | [] => if acc.isEmpty then [] else [acc.reverse]
  | c :: rest =>
    if isPySpace c then
      if acc.isEmpty then pySplitWsGo [] rest else acc.reverse :: pySplitWsGo [] rest
    else pySplitWsGo (c :: acc) rest

/-- Python `str.split()` with no argument. -/
def pySplitWs (s : String) : List String :=
  (pySplitWsGo [] s.data).map fun cs => ⟨cs⟩

/-- Index of the first occurrence of `needle` in `hay` (Python `str.find` /
the `in` operator for a nonempty needle). -/
def substrIdx (hay needle : List Char) : Option Nat :=
  match hay with
  | [] => if needle.isEmpty then some 0 else none
  | _ :: t => if needle.isPrefixOf hay then some 0 else (substrIdx t needle).map (· + 1)

/-- Python truthiness of an optional string (`None` and `""` are falsy). -/
def pyTruthyOptStr : Option String → Bool
  | none => false
  | some s => s ≠ ""

/-- Python `a or b` where `a` is an optional string and `b` a string. -/
def pyOrStr (a : Option String) (b : String) : String :=
  match a with
  | none => b
  | some s => if s = "" then b else s

/-- A Python value as stored in the `value` slot of a plan step:
`None`, a `str`, or an `int`. -/
inductive PyVal where
  | vNone : PyVal
  | vStr (s : String) : PyVal
  | vInt (n : Int) : PyVal
deriving DecidableEq, Repr

/-- Python truthiness of a plan-step value. -/
def PyVal.truthy : PyVal → Bool
  | .vNone => false
  | .vStr s => s ≠ ""
  | .vInt n => n ≠ 0

/-- Python `str()` of a plan-step value, as used by f-string interpolation. -/
def PyVal.pyStr : PyVal → String
  | .vNone => "None"
  | .vStr s => s
  | .vInt n => toString n

/-- One parsed action: the dict
`(action := ..., target := ..., value := ...)` built by
`simple_plan_from_task`. -/
structure Action where
  action : String
  target : Option String
  value : PyVal
deriving DecidableEq, Repr

/-! ## The regex helpers of the parser -/

/-- A quote character for the pattern `["\']`. -/
def isQuoteChar (c : Char) : Bool := c = '"' || c = '\x27'

/-- Lazy scan for the closing quote of `["\'](.+?)["\']` once an opening quote
has been consumed: the group takes the shortest nonempty stretch of
non-newline characters ending right before a quote character. -/
def quotedClose (acc : List Char) (cs : List Char) : Option (List Char) :=
  match cs with
  | [] => none
  | c :: rest =>
    if isQuoteChar c && !acc.isEmpty then some acc.reverse
    else if c = '\n' then none
    else quotedClose (c :: acc) rest

/-- Leftmost match of `["\'](.+?)["\']` (the group), scanning start positions
left to right as `re.search` does. -/
def quotedSearch : List Char → Option (List Char)
  | [] => none
  | c :: rest =>
    if isQuoteChar c then
      match quotedClose [] rest with
      | some g => some g
      | none => quotedSearch rest
    else quotedSearch rest

/-- `extract_quoted`: `re.search(r'["\'](.+?)["\']', s)`, group 1 stripped;
`None` when there is no match. -/
def extract_quoted (s : String) : Option String :=
  (quotedSearch s.data).map fun g => pyStrip ⟨g⟩

/-- The character class `[A-Za-z0-9 ._-]` of the label pattern. -/
def isLabelChar (c : Char) : Bool :=
  c.isAlpha || c.isDigit || c = ' ' || c = '.' || c = '_' || c = '-'

/-- Greedy search for the body of `(["\']?)([A-Za-z0-9 ._-]{2,80})\1` when
group 1 matched the quote `q`: the body takes the longest length `k ≤ 80`
of label characters followed immediately by the same quote `q`.
`k` counts down from the fuel (initially 80). -/
def quotedLabelTry (q : Char) (rest : List Char) : Nat → Option (List Char)
  | 0 => none
  | k + 1 =>
    if k + 1 < 2 then none
    else if (rest.take (k + 1)).length == k + 1 && (rest.take (k + 1)).all isLabelChar
         && (rest.drop (k + 1)).head? == some q then
      some (rest.take (k + 1))
    else quotedLabelTry q rest k

/-- Match of `(["\']?)([A-Za-z0-9 ._-]{2,80})\1` anchored at the current
position (group 2).  The optional quote alternative is tried first, as the
Python engine does for a greedy `?`. -/
def labelMatchAt (cs : List Char) : Option (List Char) :=
  match cs with
  | [] => none
  | c :: rest =>
    if isQuoteChar c then quotedLabelTry c rest 80
    else
      let run := cs.takeWhile isLabelChar
      if run.length ≥ 2 then some (run.take 80) else none

/-- Leftmost match of the label pattern, scanning start positions left to
right. -/
def labelSearch : List Char → Option (List Char)
  | [] => none
  | c :: rest =>
    match labelMatchAt (c :: rest) with
    | some g => some g
    | none => labelSearch rest

/-- `extract_label`: a quoted substring if `extract_quoted` returns a truthy
string, else group 2 of `(["\']?)([A-Za-z0-9 ._-]{2,80})\1` stripped, else
`None`. -/
def extract_label (s : String) : Option String :=
  let q := extract_quoted s
  if pyTruthyOptStr q then q
  else
    match labelSearch s.data with
    | some g => some (pyStrip ⟨g⟩)
    | none => none

/-- The class `[\w\.-]` of the email pattern (`\w` is ASCII here). -/
def isEmailChar (c : Char) : Bool :=
  c.isAlphanum || c = '_' || c = '.' || c = '-'

/-- A `\w` word character (ASCII fragment). -/
def isWordChar (c : Char) : Bool := c.isAlphanum || c = '_'

/-- Largest split point of the domain run for `[\w\.-]+\.\w+`: the greedy
first piece ends at the last `.` of the run that is followed by a word
character inside the run.  Returns the length of the full match within the
run (`piece ++ "." ++ wordrun`). -/
def emailDomainSplit (r : List Char) : Option Nat :=
  match r with
  | [] => none
  | c :: rest =>
    match emailDomainSplit rest with
    | some n => some (n + 1)
    | none =>
      match rest with
      | [] => none
      | d :: _ =>
        if c = '.' && isWordChar d then some (1 + (rest.takeWhile isWordChar).length)
        else none

/-- Match of `[\w\.-]+@[\w\.-]+\.\w+` anchored at the current position.
Since `@` is not in the class, the local-part run must be followed directly
by `@`; the domain run is then split at its rightmost `.` that is followed
by a word character, the dot needing at least one domain character before
it. -/
def emailMatchAt (cs : List Char) : Option (List Char) :=
  let localRun := cs.takeWhile isEmailChar
  if localRun.isEmpty then none
  else
    match cs.drop localRun.length with
    | [] => none
    | a :: afterAt =>
      if a = '@' then
        let domRun := afterAt.takeWhile isEmailChar
        match domRun with
        | [] => none
        | c0 :: domRest =>
          match emailDomainSplit domRest with
          | some n => some (localRun ++ '@' :: c0 :: domRest.take n)
          | none => none
      else none

/-- Leftmost match of the email pattern. -/
def emailSearch : List Char → Option (List Char)
  | [] => none
  | c :: rest =>
    match emailMatchAt (c :: rest) with
    | some g => some g
    | none => emailSearch rest

/-- `extract_email`: `re.search(r'[\w\.-]+@[\w\.-]+\.\w+', s)`, whole match;
`None` when there is no match. -/
def extract_email (s : String) : Option String :=
  (emailSearch s.data).map fun g => ⟨g⟩

/-- Numeric value of a list of decimal digit characters, as Python `int`. -/
def digitsVal (ds : List Char) : Nat :=
  ds.foldl (fun a c => 10 * a + (c.toNat - 48)) 0

/-- Leftmost match of `(\d+)`: the maximal digit run starting at the first
digit. -/
def numberSearch : List Char → Option (List Char)
  | [] => none
  | c :: rest =>
    if c.isDigit then some ((c :: rest).takeWhile Char.isDigit)
    else numberSearch rest

/-- `extract_number`: `int(m.group(1))` of the first `(\d+)` match, else
`None`. -/
def extract_number (s : String) : Option Nat :=
  (numberSearch s.data).map digitsVal

/-- `guess_value_from_sentence`: the last whitespace-delimited token of the
sentence, `""` when there is none. -/
def guess_value_from_sentence (sentence : String) : String :=
  match (pySplitWs (pyStrip sentence)).getLast? with
  | none => ""
  | some t => pyStrip t

/-- The fixed tuple of field names scanned by `guess_target_from_sentence`. -/
def targetNames : List String :=
  ["username", "user", "email", "password", "search", "country", "exam", "date"]

/-- `guess_target_from_sentence`: the first listed field name occurring in
`sentence.lower() + " " + remainder.lower()`, else the stripped remainder if
it is nonempty with at most four tokens, else `None`. -/
def guess_target_from_sentence (sentence remainder : String) : Option String :=
  let s := pyLower sentence ++ " " ++ pyLower remainder
  match targetNames.find? (fun n => (substrIdx s.data n.data).isSome) with
  | some n => some n
  | none =>
    if remainder ≠ "" && (pySplitWs remainder).length ≤ 4 then some (pyStrip remainder)
    else none

/-- A separator of the numeric date pattern: a slash or a hyphen. -/
def isDateSep (c : Char) : Bool := c = '/' || c = '-'

/-- Greedy `\d{lo,hi}` anchored at `cs`: the number of digits taken. -/
def digitsTake (cs : List Char) (lo hi : Nat) : Option Nat :=
  let run := (cs.takeWhile Char.isDigit).length
  if run ≥ lo then some (min run hi) else none

/-- Match of the numeric date pattern (one or two digits, slash or hyphen,
one or two digits, slash or hyphen, two to four digits) anchored at the
current position, with the engine's greedy backtracking on the two leading
digit groups (two digits tried before one). -/
def date1At (cs : List Char) : Option (List Char) :=
  let tail2 : List Char → Nat → Option Nat := fun r2 used =>
    match digitsTake r2 2 4 with
    | some n3 => some (used + n3)
    | none => none
  let mid : List Char → Nat → Option Nat := fun r1 used =>
    (match (r1.take 2).length == 2 && (r1.take 2).all Char.isDigit, r1.drop 2 with
     | true, s :: r2 => if isDateSep s then tail2 r2 (used + 3) else none
     | _, _ => none).orElse fun _ =>
    match (r1.take 1).length == 1 && (r1.take 1).all Char.isDigit, r1.drop 1 with
    | true, s :: r2 => if isDateSep s then tail2 r2 (used + 2) else none
    | _, _ => none
  let start : Option Nat :=
    (match (cs.take 2).length == 2 && (cs.take 2).all Char.isDigit, cs.drop 2 with
     | true, s :: r1 => if isDateSep s then mid r1 3 else none
     | _, _ => none).orElse fun _ =>
    match (cs.take 1).length == 1 && (cs.take 1).all Char.isDigit, cs.drop 1 with
    | true, s :: r1 => if isDateSep s then mid r1 2 else none
    | _, _ => none
  start.map cs.take

/-- Leftmost match of the numeric date pattern. -/
def date1Search : List Char → Option (List Char)
  | [] => none
  | c :: rest =>
    match date1At (c :: rest) with
    | some g => some g
    | none => date1Search rest

/-- Match of `\d{1,2}\s+[A-Za-z]{3,9}\s*\d{0,4}` anchored at the current
position.  After the mandatory whitespace the letter run (capped at nine),
the optional whitespace and the optional digits (capped at four) are all
greedy and never need to backtrack. -/
def date2At (cs : List Char) : Option (List Char) :=
  let afterDigits : List Char → Nat → Option Nat := fun r used =>
    let ws := (r.takeWhile isPySpace).length
    if ws = 0 then none
    else
      let letters := ((r.drop ws).takeWhile Char.isAlpha).length
      if letters < 3 then none
      else
        let l := min letters 9
        let ws2 := ((r.drop (ws + l)).takeWhile isPySpace).length
        let d := min ((r.drop (ws + l + ws2)).takeWhile Char.isDigit).length 4
        some (used + ws + l + ws2 + d)
  let start : Option Nat :=
    (match (cs.take 2).length == 2 && (cs.take 2).all Char.isDigit with
     | true => afterDigits (cs.drop 2) 2
     | false => none).orElse fun _ =>
    match (cs.take 1).length == 1 && (cs.take 1).all Char.isDigit with
    | true => afterDigits (cs.drop 1) 1
    | false => none
  start.map cs.take

/-- Leftmost match of the month-name date pattern. -/
def date2Search : List Char → Option (List Char)
  | [] => none
  | c :: rest =>
    match date2At (c :: rest) with
    | some g => some g
    | none => date2Search rest

/-- `find_date_in_text`: the numeric pattern first (group as is), else the
month-name pattern (group stripped), else `None`. -/
def find_date_in_text (s : String) : Option String :=
  match date1Search s.data with
  | some g => some ⟨g⟩
  | none =>
    match date2Search s.data with
    | some g => some (pyStrip ⟨g⟩)
    | none => none

/-- Match of `(https?://\S+)|www\.\S+` anchored at the current position:
the `http` alternative is tried first, `s?` greedily, and `\S+` takes the
maximal nonempty run of non-whitespace characters. -/
def urlMatchAt (cs : List Char) : Option (List Char) :=
  let tryPre : String → Option (List Char) := fun pre =>
    if pre.data.isPrefixOf cs then
      let rest := cs.drop pre.data.length
      let run := rest.takeWhile (fun c => !isPySpace c)
      if run.isEmpty then none else some (pre.data ++ run)
    else none
  ((tryPre "https://").orElse fun _ => tryPre "http://").orElse fun _ => tryPre "www."

/-- Leftmost match of the URL pattern of the `open` branch. -/
def urlSearch : List Char → Option (List Char)
  | [] => none
  | c :: rest =>
    match urlMatchAt (c :: rest) with
    | some g => some g
    | none => urlSearch rest

/-! ## Clause splitting: the pattern given to `re.split` -/

/-- A clause-delimiter character of the class of commas, periods and
semicolons. -/
def isSepChar (c : Char) : Bool := c = ',' || c = '.' || c = ';'

/-- Left word boundary for a delimiter word (its first character is a word
character, so the preceding character, when there is one, must not be). -/
def boundaryLeft : Option Char → Bool
  | none => true
  | some p => !isWordChar p

/-- Right word boundary after a delimiter word. -/
def boundaryRight : List Char → Bool
  | [] => true
  | r :: _ => !isWordChar r

/-- Length of the delimiter match starting at the current position for the
alternation of a nonempty run of separator characters with the standalone
words "and", "then", "after" (tried in that order, and only matched between
word boundaries).  The words appear lowercase in the pattern and `re.split`
is called without IGNORECASE, so the match is case sensitive. -/
def matchDelimLen (prev : Option Char) (cs : List Char) : Option Nat :=
  match cs with
  | [] => none
  | c :: _ =>
    if isSepChar c then some (cs.takeWhile isSepChar).length
    else
      let word : String → Option Nat := fun w =>
        if w.data.isPrefixOf cs && boundaryLeft prev && boundaryRight (cs.drop w.data.length)
        then some w.data.length else none
      ((word "and").orElse fun _ => (word "then").orElse fun _ => word "after")

/-- The scan of `re.split` on the task text: `prev` is the character before
the current position, `skip` the number of still-unconsumed characters of a
delimiter match, `acc` the reversed current chunk. -/
def splitGo (prev : Option Char) (skip : Nat) (acc : List Char) : List Char → List (List Char)
  | [] => [acc.reverse]
  | c :: rest =>
    match skip with
    | k + 1 => splitGo (some c) k acc rest
    | 0 =>
      match matchDelimLen prev (c :: rest) with
      | some n => acc.reverse :: splitGo (some c) (n - 1) [] rest
      | none => splitGo (some c) 0 (c :: acc) rest

/-- `re.split` of the clause-delimiter pattern over the task text. -/
def splitClauses (task_text : String) : List String :=
  (splitGo none 0 [] task_text.data).map fun cs => ⟨cs⟩

/-- The stripped, nonempty clauses the parser loop actually processes
(`s = raw.strip(); if not s: continue`). -/
def clauses (task_text : String) : List String :=
  ((splitClauses task_text).map pyStrip).filter (fun s => s ≠ "")

/-! ## The keyword table and `find_action_verb` -/

/-- `ACTION_KEYWORDS`, in declaration order (Python dicts preserve insertion
order). -/
def ACTION_KEYWORDS : List (String × List String) :=
  [("open", ["open", "go to", "visit", "navigate"]),
   ("click", ["click", "press", "tap", "select"]),
   ("type", ["type", "enter", "fill", "write"]),
   ("select", ["select", "choose"]),
   ("wait", ["wait", "pause", "sleep", "hold"]),
   ("login", ["login", "log in", "sign in"]),
   ("submit", ["submit", "send", "confirm"]),
   ("pick_date", ["date", "pick", "choose date", "select date"])]

/-- First keyword of `kws` (in list order) occurring in the lowered sentence,
with the index of its first occurrence. -/
def firstKwHit (low : List Char) : List String → Option (Nat × Nat)
  | [] => none
  | k :: ks =>
    match substrIdx low k.data with
    | some i => some (i, k.data.length)
    | none => firstKwHit low ks

/-- The scan of `find_action_verb` over the keyword table. -/
def favGo (sentence : String) (low : List Char) : List (String × List String) → String × String
  | [] => ("unknown", sentence)
  | (act, kws) :: rest =>
    match firstKwHit low kws with
    | some (i, len) => (act, pyStrip ⟨sentence.data.drop (i + len)⟩)
    | none => favGo sentence low rest

/-- `find_action_verb`: the first table entry one of whose keywords occurs in
the lowercased sentence determines the action; the remainder is the
original-case text after that keyword occurrence, stripped. -/
def find_action_verb (sentence : String) : String × String :=
  favGo sentence (pyLower sentence).data ACTION_KEYWORDS

/-! ## `simple_plan_from_task` -/

/-- The actions appended for one stripped clause `s` of the task text (the
per-action heuristics of `simple_plan_from_task`); the `open` branch without
a URL appends nothing. -/
def clause_actions (s : String) : List Action :=
  let ar := find_action_verb s
  let act := ar.1
  let rem := ar.2
  if act = "open" then
    match urlSearch s.data with
    | some u => [⟨"open", some ⟨u⟩, .vNone⟩]
    | none => []
  else if act = "click" then
    let label := pyOrStr (extract_label rem) (pyOrStr (extract_label s) (pyStrip rem))
    [⟨"click", some label, .vNone⟩]
  else if act = "type" then
    let value := pyOrStr (extract_quoted rem)
      (pyOrStr (extract_email rem) (guess_value_from_sentence s))
    let target := guess_target_from_sentence s rem
    if value ≠ "" then [⟨"type", target, .vStr value⟩]
    else [⟨"type", target, .vStr (pyStrip rem)⟩]
  else if act = "select" then
    let option := pyOrStr (extract_label rem) (pyStrip rem)
    let target := guess_target_from_sentence s rem
    [⟨"select", target, .vStr option⟩]
  else if act = "pick_date" then
    let target := guess_target_from_sentence s rem
    [⟨"pick_date", target,
      match find_date_in_text s with
      | some d => .vStr d
      | none => .vNone⟩]
  else if act = "wait" then
    let secs : Nat :=
      match extract_number rem with
      | some n => if n = 0 then 2 else n
      | none => 2
    [⟨"wait", none, .vInt secs⟩]
  else if act = "submit" || act = "login" then
    [⟨"submit", none, .vNone⟩]
  else
    if s.data.contains '@' then
      [⟨"type", some "email",
        match extract_email s with
        | some e => .vStr e
        | none => .vNone⟩]
    else if (pySplitWs s).length ≤ 4 then [⟨"click", some (pyStrip s), .vNone⟩]
    else [⟨"type", none, .vStr (pyStrip s)⟩]

/-- The compression loop over the already-kept plan tail: an `open` action is
dropped while the most recently kept action is also an `open`. -/
def compressGo (last : Action) : List Action → List Action
  | [] => []
  | a :: as =>
    if a.action == "open" && last.action == "open" then compressGo last as
    else a :: compressGo a as

/-- The `cleaned` pass of `simple_plan_from_task`: consecutive `open` actions
collapse, keeping the earliest. -/
def compressOpens : List Action → List Action
  | [] => []
  | a :: as => a :: compressGo a as

/-- `simple_plan_from_task`: seed an `open` of the base URL when it is
nonempty, process every stripped nonempty clause, and compress consecutive
`open` actions. -/
def simple_plan_from_task (task_text base_url : String) : List Action :=
  let seeded :=
    (if base_url ≠ "" then [⟨"open", some base_url, .vNone⟩] else []) ++
      (clauses task_text).flatMap clause_actions
  compressOpens seeded

/-! ## The embedded Fuzzy Locator of the generated script -/

/-- The state of the page the generated script runs against: for each of the
seven locator strategies of `find_element_fuzzy`, the element (if any) that
`driver.find_element` returns for a given descriptor; `none` models a raised
exception (`NoSuchElementException` or an invalid-selector error), which the
generated code swallows.  Elements are identified by numbers. -/
structure Page where
  byId : String → Option Nat
  byName : String → Option Nat
  byLinkText : String → Option Nat
  byPartialLinkText : String → Option Nat
  byTextEquals : String → Option Nat
  byTextContains : String → Option Nat
  byCss : String → Option Nat

/-- The seven strategy results in attempt order: id, name, exact link text,
partial link text, exact text content (the XPath with `text()=`), partial
text content (the XPath with `contains(text(), ...)`), raw CSS selector. -/
def fuzzyStrategies (p : Page) (d : String) : List (Option Nat) :=
  [p.byId d, p.byName d, p.byLinkText d, p.byPartialLinkText d,
   p.byTextEquals d, p.byTextContains d, p.byCss d]

/-- `find_element_fuzzy(driver, descriptor)` of the generated script: falsy
descriptors (absent or empty) return `None` at once; otherwise the stripped
descriptor is handed to the seven strategies, every successful attempt is
appended to `tries`, and `tries[0]` (the first success in attempt order) is
returned, `None` when `tries` is empty. -/
def find_element_fuzzy (p : Page) (descriptor : Option String) : Option Nat :=
  match descriptor with
  | none => none
  | some s =>
    if s = "" then none
    else ((fuzzyStrategies p (pyStrip s)).filterMap id).head?

/-- `find_element_fuzzy` instrumented with the list of strategy attempts it
makes: a falsy descriptor returns before any strategy runs, so its attempt
list is empty. -/
def find_element_fuzzy_traced (p : Page) (descriptor : Option String) :
    Option Nat × List (Option Nat) :=
  match descriptor with
  | none => (none, [])
  | some s =>
    if s = "" then (none, [])
    else
      let attempts := fuzzyStrategies p (pyStrip s)
      ((attempts.filterMap id).head?, attempts)

/-- Which side of the `if el:` test a generated step takes. -/
inductive LocBranch where
  | found : LocBranch
  | notFound : LocBranch
deriving DecidableEq, Repr

/-- The descriptor string the generator interpolates into
`find_element_fuzzy(driver, r'''...''')`, namely `t or ''`. -/
def stepDescriptor (a : Action) : String :=
  match a.target with
  | none => ""
  | some s => s

/-- For the four step kinds whose generated code starts with
`el = find_element_fuzzy(driver, r'''...''')` followed by `if el:`, the
branch the step takes on page `p`; `none` for the other step kinds, which
emit no locator call. -/
def step_locator_branch (p : Page) (a : Action) : Option LocBranch :=
  if a.action = "click" ∨ a.action = "type" ∨ a.action = "select" ∨ a.action = "pick_date" then
    some (match find_element_fuzzy p (some (stepDescriptor a)) with
          | some _ => LocBranch.found
          | none => LocBranch.notFound)
  else none

/-! ## `generate_script_from_plan`: the generated source text -/

/-- The fixed header of every generated script: the imports and the source
text of `find_element_fuzzy`, then the opening of `run_plan`. -/
def scriptHeader : List String :=
  ["from selenium import webdriver",
   "from selenium.webdriver.common.by import By",
   "from selenium.webdriver.support.ui import Select",
   "import time",
   "",
   "def find_element_fuzzy(driver, descriptor):",
   "    # descriptor can be id, name, visible text, css selector or xpath fragment",
   "    if not descriptor:",
   "        return None",
   "    d = descriptor.strip()",
   "    # try several common locators",
   "    tries = []",
   "    try:",
   "        # by id",
   "        tries.append(driver.find_element(By.ID, d))",
   "    except Exception:",
   "        pass",
   "    try:",
   "        tries.append(driver.find_element(By.NAME, d))",
   "    except Exception:",
   "        pass",
   "    try:",
   "        tries.append(driver.find_element(By.LINK_TEXT, d))",
   "    except Exception:",
   "        pass",
   "    try:",
   "        # partial link text fallback",
   "        tries.append(driver.find_element(By.PARTIAL_LINK_TEXT, d))",
   "    except Exception:",
   "        pass",
   "    try:",
   "        tries.append(driver.find_element(By.XPATH, \"//*[text()=\\\"%s\\\"]\" % d))",
   "    except Exception:",
   "        pass",
   "    try:",
   "        tries.append(driver.find_element(By.XPATH, \"//*[contains(text(), '%s')]\" % d))",
   "    except Exception:",
   "        pass",
   "    try:",
   "        tries.append(driver.find_element(By.CSS_SELECTOR, d))",
   "    except Exception:",
   "        pass",
   "    if tries:",
   "        return tries[0]",
   "    return None",
   "",
   "def run_plan(driver):",
   "    ok = True"]

/-- F-string interpolation of the optional target (`str(None)` is `"None"`). -/
def pyFmtOpt : Option String → String
  | none => "None"
  | some s => s

/-- The string value `v or ""` rendered by the f-string, i.e. `str(v)` when
`v` is truthy and `""` otherwise. -/
def pyValOrEmpty (v : PyVal) : String :=
  if v.truthy then v.pyStr else ""

/-- Python `int(...)` of a step value.  The generator only applies it to the
`wait` value, which the parser stores as an `int`; the `vStr`/`vNone` rows
(where CPython would raise) are given a harmless total value, and no theorem
below depends on them. -/
def pyIntOfVal : PyVal → Int
  | .vInt n => n
  | .vStr s => (s.toInt?).getD 0
  | .vNone => 0

/-- `int(v or 2)` of the `wait` branch of the generator. -/
def waitSecs (v : PyVal) : Int :=
  pyIntOfVal (if v.truthy then v else .vInt 2)

/-- The generated lines for one plan step, exactly as the corresponding
branch of `generate_script_from_plan` emits them (f-strings expanded).  Note
the `pick_date` branch emits its `try:` suite and its `except` clause jammed
on a single line. -/
def stepLines (step : Action) : List String :=
  let a := step.action
  let t := step.target
  let v := step.value
  if a = "open" then
    ["    driver.get(r'''" ++ pyFmtOpt t ++ "''')  # open",
     "    time.sleep(2)"]
  else if a = "click" then
    ["    el = find_element_fuzzy(driver, r'''" ++ stepDescriptor step ++ "''')",
     "    if el:",
     "        try: el.click(); time.sleep(1)",
     "        except Exception: pass",
     "    else:",
     "        print('Could not find element to click: " ++ pyFmtOpt t ++ "')"]
  else if a = "type" then
    ["    el = find_element_fuzzy(driver, r'''" ++ stepDescriptor step ++ "''')",
     "    if el:",
     "        try: el.clear(); el.send_keys(r'''" ++ pyValOrEmpty v ++ "'''); time.sleep(0.8)",
     "        except Exception: pass",
     "    else:",
     "        print('Could not find element to type into: " ++ pyFmtOpt t ++
       ". Trying to search inputs and use first.')",
     "        try:",
     "            inputs = driver.find_elements(By.TAG_NAME, 'input')",
     "            if inputs: inputs[0].send_keys(r'''" ++ pyValOrEmpty v ++ "''')",
     "        except Exception: pass"]
  else if a = "select" then
    ["    el = find_element_fuzzy(driver, r'''" ++ stepDescriptor step ++ "''')",
     "    if el:",
     "        try:",
     "            sel = Select(el)",
     "            sel.select_by_visible_text(r'''" ++ pyValOrEmpty v ++ "''')",
     "        except Exception:",
     "            try: el.click(); time.sleep(0.5)  # fallback",
     "            except Exception: pass",
     "    else:",
     "        # Try to select option by visible text anywhere",
     "        try:",
     "            opt_el = driver.find_element(By.XPATH, \"//option[contains(normalize-space(.), '" ++
       pyValOrEmpty v ++ "')]\")",
     "            opt_el.click()",
     "        except Exception: pass"]
  else if a = "pick_date" then
    ["    el = find_element_fuzzy(driver, r'''" ++ stepDescriptor step ++ "''')",
     "    if el:",
     "        try: el.send_keys(r'''" ++ pyValOrEmpty v ++ "'''); time.sleep(0.5) except Exception: pass"]
  else if a = "wait" then
    ["    time.sleep(" ++ toString (waitSecs v) ++ ")"]
  else if a = "submit" then
    ["    try:",
     "        forms = driver.find_elements(By.TAG_NAME, 'form')",
     "        if forms: forms[0].submit(); time.sleep(1)",
     "    except Exception: pass"]
  else
    ["    print('Unknown action " ++ a ++ " for step target " ++ pyFmtOpt t ++
       " value " ++ v.pyStr ++ "')"]

/-- All lines accumulated by `generate_script_from_plan` before joining. -/
def generateScriptLines (plan : List Action) : List String :=
  scriptHeader ++ plan.flatMap stepLines ++ ["    return ok"]

/-- The standalone `__main__` guard appended verbatim to every generated
script. -/
def scriptFooter : String :=
  "\n\nif __name__ == '__main__':\n    from selenium.webdriver.firefox.options import Options\n    opts = Options()\n    # opts.add_argument('--headless')  # uncomment to run headless\n    driver = webdriver.Firefox(options=opts)\n    try:\n        ok = run_plan(driver)\n        print('Done, ok=', ok)\n    except Exception as e:\n        print('Error during run:', e)\n    finally:\n        driver.quit()\n"

/-- `generate_script_from_plan(plan, script_name)`: the joined lines plus the
`__main__` guard (the name argument is unused in the source too). -/
def generate_script_from_plan (plan : List Action) (script_name : String) : String :=
  String.intercalate "\n" (generateScriptLines plan) ++ scriptFooter

/-! ## The persistent store and the generated-scripts directory -/

/-- One row of the `tasks` relation (`task_text` is declared UNIQUE; the
surrogate `id` plays no role in any query of the module and is omitted). -/
structure TaskRow where
  task_text : String
  script_path : String
  script_text : String
  last_used : String
  success_count : Nat
  fail_count : Nat
deriving DecidableEq, Repr

/-- The `tasks` table. -/
abbrev TasksDb := List TaskRow

/-- The generated-scripts directory: file name to file contents. -/
abbrev ScriptsFs := List (String × String)

/-- `open(path, "w")` followed by `write`: creates the file or truncates and
overwrites an existing file of the same name. -/
def writeFile : ScriptsFs → String → String → ScriptsFs
  | [], name, content => [(name, content)]
  | (m, d) :: fs, name, content =>
    if m = name then (name, content) :: fs
    else (m, d) :: writeFile fs name content

/-- Contents of a named file, if present. -/
def readFile (fs : ScriptsFs) (name : String) : Option String :=
  (fs.find? (fun p => p.1 == name)).map (fun p => p.2)

/-- Decimal digits of a natural number, most significant first, as Python
`str(int)` renders it (structural fuel so that the kernel can evaluate it). -/
def decDigitsGo : Nat → Nat → List Char
  | 0, _ => []
  | fuel + 1, n =>
    if n < 10 then [Char.ofNat (48 + n)]
    else decDigitsGo fuel (n / 10) ++ [Char.ofNat (48 + n % 10)]

/-- Python `str(n)` for a natural number. -/
def decRepr (n : Nat) : String :=
  ⟨decDigitsGo (n + 1) n⟩

/-- The file name `f"script_{int(time.time())}.py"` built by
`save_script_to_db`; the epoch argument is `int(time.time())`, the current
time in whole seconds. -/
def script_file_name (epoch : Nat) : String :=
  "script_" ++ decRepr epoch ++ ".py"

/-- The path `os.path.join(SCRIPTS_DIR, file_name)` of the saved script. -/
def script_path_of (epoch : Nat) : String :=
  "generated_scripts/" ++ script_file_name epoch

/-- `load_script_from_db`: `SELECT ... WHERE task_text=? LIMIT 1`. -/
def load_script_from_db (db : TasksDb) (task_text : String) : Option TaskRow :=
  db.find? (fun r => r.task_text == task_text)

/-- `save_script_to_db`: writes the script text to a file named from the
current whole-second time, then runs the `INSERT OR REPLACE` with the
`COALESCE((SELECT success_count ...), 0)` / `COALESCE((SELECT fail_count
...), 0)` carry-forward.  SQLite evaluates the VALUES expressions against
the table as it stands, then deletes any row conflicting on the UNIQUE
`task_text` and inserts the new row.  `epoch` is `int(time.time())` and
`nowIso` is `datetime.datetime.utcnow().isoformat()`. -/
def save_script_to_db (db : TasksDb) (fs : ScriptsFs) (task_text script_text : String)
    (epoch : Nat) (nowIso : String) : TasksDb × ScriptsFs :=
  let path := script_path_of epoch
  let fs2 := writeFile fs path script_text
  let carriedS := ((load_script_from_db db task_text).map TaskRow.success_count).getD 0
  let carriedF := ((load_script_from_db db task_text).map TaskRow.fail_count).getD 0
  let db2 := db.filter (fun r => !(r.task_text == task_text)) ++
    [⟨task_text, path, script_text, nowIso, carriedS, carriedF⟩]
  (db2, fs2)

/-- `update_task_stats`: `UPDATE tasks SET <col> = <col> + 1, last_used = ?
WHERE task_text = ?` with `<col>` chosen by `success`; rows with another key
are untouched and a missing key updates nothing. -/
def update_task_stats (db : TasksDb) (task_text : String) (success : Bool)
    (nowIso : String) : TasksDb :=
  db.map fun r =>
    if r.task_text == task_text then
      { r with
        success_count := if success then r.success_count + 1 else r.success_count
        fail_count := if success then r.fail_count else r.fail_count + 1
        last_used := nowIso }
    else r

/-! ## `execute_script_text`: the execution engine -/

/-- Outcome of calling the `run_plan` function found in the executed
namespace with the fresh driver: it returns a boolean or raises. -/
inductive RunOutcome where
  | ret (ok : Bool) : RunOutcome
  | raises : RunOutcome
deriving DecidableEq, Repr

/-- Behaviour of a generated script under `compile`/`exec`: either the text
does not compile or its execution raises (`compileError`, e.g. the jammed
`try`/`except` line of a `pick_date` step), or it populates a namespace
that may or may not define `run_plan`, together with whether the eventual
`driver.quit()` raises. -/
inductive ScriptModel where
  | compileError : ScriptModel
  | ns (run_plan : Option RunOutcome) (quit_raises : Bool) : ScriptModel
deriving DecidableEq, Repr

/-- Whether the executed program exposes the `run_plan` entry point. -/
def exposesRunPlan : ScriptModel → Bool
  | .compileError => false
  | .ns none _ => false
  | .ns (some _) _ => true

/-- What one call of `execute_script_text` did: its boolean return value and
how many Firefox driver sessions it constructed. -/
structure EngineResult where
  success : Bool
  sessions_created : Nat
deriving DecidableEq, Repr

/-- `execute_script_text(script_text, headless)`: compile and exec the text
(failure returns `False` at once); check that the namespace defines
`run_plan` (otherwise return `False`); only then construct the one
`webdriver.Firefox` session, call `run_plan(driver)` (an uncaught exception
makes `success = False`), and quit the driver in `finally` with a quit
failure suppressed. -/
def execute_script_text (script : ScriptModel) (headless : Bool) : EngineResult :=
  match script with
  | .compileError => ⟨false, 0⟩
  | .ns none _ => ⟨false, 0⟩
  | .ns (some (.ret ok)) _ => ⟨ok, 1⟩
  | .ns (some .raises) _ => ⟨false, 1⟩

/-! ## Spec-side predicates and concrete fixtures -/

/-- The collapse invariant of the spec: no two consecutive plan entries are
both `open` actions. -/
def noConsecutiveOpens : List Action → Bool
  | [] => true
  | [_] => true
  | a :: b :: t => !(a.action == "open" && b.action == "open") && noConsecutiveOpens (b :: t)

/-- A page exposing the descriptor "Register" both as an identifier
(element 1) and as exact link text (element 2). -/
def demoPage : Page :=
  ⟨fun s => if s = "Register" then some 1 else none,
   fun _ => none,
   fun s => if s = "Register" then some 2 else none,
   fun _ => none,
   fun _ => none,
   fun _ => none,
   fun _ => none⟩

/-! ## Theorems -/

/-- Claim C1: for every page state and nonempty descriptor string, the
embedded Fuzzy Locator returns the match of the highest-priority strategy
among the seven — identifier, name, exact link text, partial link text,
exact text content, partial text content, raw selector, in that order —
that produced a match (so a page exposing the descriptor both as an
identifier and as link text resolves to the identifier match), and it
returns not-found when no strategy matches. -/
theorem fuzzy_locator_priority (p : Page) (d : String) (hd : d ≠ "") :
    (∀ e, p.byId (pyStrip d) = some e →
      find_element_fuzzy p (some d) = some e) ∧
    (p.byId (pyStrip d) = none → ∀ e, p.byName (pyStrip d) = some e →
      find_element_fuzzy p (some d) = some e) ∧
    (p.byId (pyStrip d) = none → p.byName (pyStrip d) = none →
      ∀ e, p.byLinkText (pyStrip d) = some e →
      find_element_fuzzy p (some d) = some e) ∧
    (p.byId (pyStrip d) = none → p.byName (pyStrip d) = none →
      p.byLinkText (pyStrip d) = none →
      ∀ e, p.byPartialLinkText (pyStrip d) = some e →
      find_element_fuzzy p (some d) = some e) ∧
    (p.byId (pyStrip d) = none → p.byName (pyStrip d) = none →
      p.byLinkText (pyStrip d) = none → p.byPartialLinkText (pyStrip d) = none →
      ∀ e, p.byTextEquals (pyStrip d) = some e →
      find_element_fuzzy p (some d) = some e) ∧
    (p.byId (pyStrip d) = none → p.byName (pyStrip d) = none →
      p.byLinkText (pyStrip d) = none → p.byPartialLinkText (pyStrip d) = none →
      p.byTextEquals (pyStrip d) = none →
      ∀ e, p.byTextContains (pyStrip d) = some e →
      find_element_fuzzy p (some d) = some e) ∧
    (p.byId (pyStrip d) = none → p.byName (pyStrip d) = none →
      p.byLinkText (pyStrip d) = none → p.byPartialLinkText (pyStrip d) = none →
      p.byTextEquals (pyStrip d) = none → p.byTextContains (pyStrip d) = none →
      ∀ e, p.byCss (pyStrip d) = some e →
      find_element_fuzzy p (some d) = some e) ∧
    (p.byId (pyStrip d) = none → p.byName (pyStrip d) = none →
      p.byLinkText (pyStrip d) = none → p.byPartialLinkText (pyStrip d) = none →
      p.byTextEquals (pyStrip d) = none → p.byTextContains (pyStrip d) = none →
      p.byCss (pyStrip d) = none →
      find_element_fuzzy p (some d) = none) := by
  refine ⟨?_, ?_, ?_, ?_, ?_, ?_, ?_, ?_⟩ <;>
    intros <;>
    simp_all [find_element_fuzzy, fuzzyStrategies, hd]

/-- Witness for C1 at a concrete page exposing "Register" both as the
identifier of element 1 and as the link text of element 2: the locator
returns element 1. -/
theorem fuzzy_locator_priority_witness :
    find_element_fuzzy demoPage (some "Register") = some 1 ∧
    demoPage.byLinkText "Register" = some 2 :=
  ⟨(fuzzy_locator_priority demoPage "Register" (by decide)).1 1 (by decide),
   by decide⟩

/-- Claim C3: running a program that does not expose the `run_plan` entry
point returns `False` and constructs zero browser sessions — the shape
check runs before any `webdriver.Firefox` call. -/
theorem run_without_entry_point_no_session (script : ScriptModel) (headless : Bool)
    (h : exposesRunPlan script = false) :
    execute_script_text script headless = ⟨false, 0⟩ := by
  cases script with
  | compileError => rfl
  | ns rp q =>
    cases rp with
    | none => rfl
    | some o => simp [exposesRunPlan] at h

/-- Witness for C3: a compiling script whose namespace lacks `run_plan`. -/
theorem run_without_entry_point_no_session_witness :
    exposesRunPlan (ScriptModel.ns none false) = false ∧
    execute_script_text (ScriptModel.ns none false) true = ⟨false, 0⟩ :=
  ⟨by decide, run_without_entry_point_no_session (ScriptModel.ns none false) true (by decide)⟩

/-- Claim C10: the embedded Fuzzy Locator returns not-found at once on an
absent or empty descriptor, attempting no strategy, and every generated
click, type, select or pick_date step whose target is absent or empty hands
the locator the empty descriptor and so takes the not-found side of its
`if el:` test. -/
theorem empty_descriptor_immediate_not_found :
    (∀ p : Page, find_element_fuzzy_traced p none = (none, [])) ∧
    (∀ p : Page, find_element_fuzzy_traced p (some "") = (none, [])) ∧
    (∀ (p : Page) (a : Action),
      (a.action = "click" ∨ a.action = "type" ∨ a.action = "select" ∨ a.action = "pick_date") →
      (a.target = none ∨ a.target = some "") →
      step_locator_branch p a = some LocBranch.notFound) := by
  refine ⟨fun p => rfl, fun p => rfl, fun p a hk ht => ?_⟩
  have hdesc : stepDescriptor a = "" := by
    rcases ht with h | h <;> simp [stepDescriptor, h]
  simp [step_locator_branch, if_pos hk, hdesc, find_element_fuzzy]

/-- Witness for C10: a select step with an empty target descriptor takes the
not-found branch on the demo page. -/
theorem empty_descriptor_immediate_not_found_witness :
    step_locator_branch demoPage ⟨"select", some "", .vStr "x"⟩ = some LocBranch.notFound :=
  empty_descriptor_immediate_not_found.2.2 demoPage ⟨"select", some "", .vStr "x"⟩
    (Or.inr (Or.inr (Or.inl rfl))) (Or.inr rfl)

/-- Claim C4 (the code is wrong here): for every plan containing a
`pick_date` action, the generated script contains a line that jams the
`try:` suite and its `except` clause on a single line.  Such a line is not
valid Python (a one-line `try:` suite cannot be followed by `except` on the
same line), so `compile()` of the generated text raises a `SyntaxError`,
`execute_script_text` returns `False` from its compile/exec handler, and no
step of the plan — pick_date or otherwise — is ever executed, contradicting
the claimed locate/input/settle behaviour with locally-caught failures. -/
theorem pick_date_step_emits_jammed_try_line (plan : List Action)
    (h : ∃ a ∈ plan, a.action = "pick_date") :
    ∃ line ∈ generateScriptLines plan, ∃ mid : String,
      line = "        try: el.send_keys(r'''" ++ mid ++
        "'''); time.sleep(0.5) except Exception: pass" := by
  obtain ⟨a, ha, hpd⟩ := h
  refine ⟨"        try: el.send_keys(r'''" ++ pyValOrEmpty a.value ++
    "'''); time.sleep(0.5) except Exception: pass", ?_, pyValOrEmpty a.value, rfl⟩
  have hmem : ("        try: el.send_keys(r'''" ++ pyValOrEmpty a.value ++
      "'''); time.sleep(0.5) except Exception: pass") ∈ stepLines a := by
    simp [stepLines, hpd]
  simp only [generateScriptLines, List.mem_append, List.mem_flatMap]
  exact Or.inl (Or.inr ⟨a, ha, hmem⟩)

/-- Witness for C4: a one-step plan picking the date 21/08/2025. -/
theorem pick_date_step_emits_jammed_try_line_witness :
    ∃ line ∈ generateScriptLines [⟨"pick_date", some "date", .vStr "21/08/2025"⟩],
      ∃ mid : String,
        line = "        try: el.send_keys(r'''" ++ mid ++
          "'''); time.sleep(0.5) except Exception: pass" :=
  pick_date_step_emits_jammed_try_line [⟨"pick_date", some "date", .vStr "21/08/2025"⟩]
    ⟨⟨"pick_date", some "date", .vStr "21/08/2025"⟩, by simp, rfl⟩

/-! ### Learning-cache lemmas -/

/-- Rows surviving the conflict deletion of `INSERT OR REPLACE` never carry
the replaced key. -/
theorem mem_filter_ne_key {db : TasksDb} {T : String} {r : TaskRow}
    (h : r ∈ db.filter (fun r => !(r.task_text == T))) : r.task_text ≠ T := by
  have := (List.mem_filter.mp h).2
  simpa using this

/-- A lookup never finds a row in the conflict-deleted part of the table. -/
theorem find_filter_ne_key (db : TasksDb) (T : String) :
    load_script_from_db (db.filter (fun r => !(r.task_text == T))) T = none := by
  rw [load_script_from_db, List.find?_eq_none]
  intro r hr
  simpa using mem_filter_ne_key hr

/-- Looking up the key just written by `save_script_to_db` returns the fresh
row, its counters carried forward from the pre-save table. -/
theorem load_after_save (db : TasksDb) (fs : ScriptsFs) (T S : String) (e : Nat) (n : String) :
    load_script_from_db (save_script_to_db db fs T S e n).1 T =
      some ⟨T, script_path_of e, S, n,
        ((load_script_from_db db T).map TaskRow.success_count).getD 0,
        ((load_script_from_db db T).map TaskRow.fail_count).getD 0⟩ := by
  have h := find_filter_ne_key db T
  rw [load_script_from_db] at h ⊢
  simp [save_script_to_db, List.find?_append, h]

/-- After `save_script_to_db` the table holds exactly one row for the saved
key. -/
theorem save_unique_key (db : TasksDb) (fs : ScriptsFs) (T S : String) (e : Nat) (n : String) :
    ((save_script_to_db db fs T S e n).1.filter (fun r => r.task_text == T)).length = 1 := by
  have hnil : (db.filter (fun r => !(r.task_text == T))).filter
      (fun r => r.task_text == T) = [] := by
    rw [List.filter_eq_nil_iff]
    intro r hr
    simpa using mem_filter_ne_key hr
  simp [save_script_to_db, List.filter_append, hnil]

/-- `update_task_stats` leaves a table untouched when no row carries the
key. -/
theorem update_task_stats_of_absent (db : TasksDb) (T : String) (s : Bool) (n : String)
    (h : load_script_from_db db T = none) :
    update_task_stats db T s n = db := by
  rw [load_script_from_db, List.find?_eq_none] at h
  induction db with
  | nil => rfl
  | cons hd tl ih =>
    have hhd : ¬ hd.task_text = T := by simpa using h hd (by simp)
    have htl := ih fun r hr => h r (by simp [hr])
    simp only [update_task_stats, List.map_cons] at htl ⊢
    rw [if_neg (by simpa using hhd), htl]

/-- `update_task_stats` bumps exactly the requested counter of the first row
carrying the key, stamping `last_used`, and leaves every other field of the
row alone. -/
theorem load_after_update (db : TasksDb) (T : String) (s : Bool) (n : String) (r : TaskRow)
    (h : load_script_from_db db T = some r) :
    load_script_from_db (update_task_stats db T s n) T =
      some { r with
        success_count := r.success_count + (if s then 1 else 0),
        fail_count := r.fail_count + (if s then 0 else 1),
        last_used := n } := by
  induction db with
  | nil => simp [load_script_from_db] at h
  | cons hd tl ih =>
    by_cases hk : hd.task_text = T
    · simp only [load_script_from_db, List.find?_cons, hk, beq_self_eq_true,
        Option.some.injEq] at h
      subst h
      simp only [update_task_stats, List.map_cons, load_script_from_db, List.find?_cons, hk]
      cases s <;> simp
    · have hb : (hd.task_text == T) = false := by simpa using hk
      simp only [load_script_from_db, List.find?_cons, hb] at h
      have ih2 := ih (by simpa [load_script_from_db] using h)
      simp only [update_task_stats, List.map_cons, load_script_from_db,
        List.find?_cons, hb, Bool.false_eq_true, if_false] at ih2 ⊢
      exact ih2

/-- Mapping a function that neither changes the tested key of any element
nor touches the elements that pass the test commutes away from `find?`. -/
theorem find_map_fixed {α : Type} (f : α → α) (p : α → Bool) (l : List α)
    (hp : ∀ a, p (f a) = p a) (hfix : ∀ a, p a = true → f a = a) :
    (l.map f).find? p = l.find? p := by
  induction l with
  | nil => rfl
  | cons hd tl ih =>
    rw [List.map_cons, List.find?_cons, List.find?_cons, hp hd]
    cases hph : p hd with
    | false => simpa using ih
    | true => simp [hfix hd hph]

/-- `update_task_stats` does not disturb rows with any other key. -/
theorem load_after_update_other (db : TasksDb) (T T2 : String) (s : Bool) (n : String)
    (h : T2 ≠ T) :
    load_script_from_db (update_task_stats db T s n) T2 = load_script_from_db db T2 := by
  rw [load_script_from_db, load_script_from_db, update_task_stats]
  apply find_map_fixed
  · intro a
    by_cases hk : a.task_text = T <;> simp [hk]
  · intro a ha
    have h2 : a.task_text = T2 := by simpa using ha
    rw [if_neg]
    simp [h2]
    exact h

/-- Claim C2: starting from a table with no record for task text `T`, the
sequence upsert(T, S1); recordOutcome(T, success); upsert(T, S2) leaves
exactly one record for `T`, whose program text is `S2` and whose counters
`success_count = 1`, `fail_count = 0` were carried forward across the second
upsert. -/
theorem upsert_outcome_upsert_carries (db : TasksDb) (fs : ScriptsFs) (T S1 S2 : String)
    (e1 e2 : Nat) (n1 n2 n3 : String) (h : load_script_from_db db T = none) :
    load_script_from_db
      (save_script_to_db (update_task_stats (save_script_to_db db fs T S1 e1 n1).1 T true n2)
        (save_script_to_db db fs T S1 e1 n1).2 T S2 e2 n3).1 T =
      some ⟨T, script_path_of e2, S2, n3, 1, 0⟩ ∧
    ((save_script_to_db (update_task_stats (save_script_to_db db fs T S1 e1 n1).1 T true n2)
        (save_script_to_db db fs T S1 e1 n1).2 T S2 e2 n3).1.filter
      (fun r => r.task_text == T)).length = 1 := by
  have h1 := load_after_save db fs T S1 e1 n1
  rw [h] at h1
  simp only [Option.map_none', Option.getD_none] at h1
  have h2 := load_after_update (save_script_to_db db fs T S1 e1 n1).1 T true n2 _ h1
  simp only [if_true] at h2
  have h3 := load_after_save (update_task_stats (save_script_to_db db fs T S1 e1 n1).1 T true n2)
    (save_script_to_db db fs T S1 e1 n1).2 T S2 e2 n3
  rw [h2] at h3
  refine ⟨?_, save_unique_key _ _ _ _ _ _⟩
  rw [h3]
  norm_num

/-- Witness for C2 on the empty table: upsert "t" "S1", record a success,
upsert "t" "S2". -/
theorem upsert_outcome_upsert_carries_witness :
    load_script_from_db
      (save_script_to_db (update_task_stats (save_script_to_db [] [] "t" "S1" 1 "n1").1 "t" true "n2")
        (save_script_to_db [] [] "t" "S1" 1 "n1").2 "t" "S2" 2 "n3").1 "t" =
      some ⟨"t", script_path_of 2, "S2", "n3", 1, 0⟩ ∧
    ((save_script_to_db (update_task_stats (save_script_to_db [] [] "t" "S1" 1 "n1").1 "t" true "n2")
        (save_script_to_db [] [] "t" "S1" 1 "n1").2 "t" "S2" 2 "n3").1.filter
      (fun r => r.task_text == "t")).length = 1 :=
  upsert_outcome_upsert_carries [] [] "t" "S1" "S2" 1 2 "n1" "n2" "n3" rfl

/-- Claim C8: `recordOutcome` increments exactly the counter selected by the
outcome of the first row whose key matches, stamps `last_used`, leaves the
other counter and all remaining fields unchanged, does not disturb rows with
other keys, and is a record-creating-nothing no-op when no row matches. -/
theorem record_outcome_contract :
    (∀ (db : TasksDb) (T : String) (s : Bool) (n : String),
      load_script_from_db db T = none → update_task_stats db T s n = db) ∧
    (∀ (db : TasksDb) (T : String) (s : Bool) (n : String) (r : TaskRow),
      load_script_from_db db T = some r →
      load_script_from_db (update_task_stats db T s n) T =
        some { r with
          success_count := r.success_count + (if s then 1 else 0),
          fail_count := r.fail_count + (if s then 0 else 1),
          last_used := n }) ∧
    (∀ (db : TasksDb) (T T2 : String) (s : Bool) (n : String), T2 ≠ T →
      load_script_from_db (update_task_stats db T s n) T2 = load_script_from_db db T2) ∧
    (∀ (db : TasksDb) (T : String) (s : Bool) (n : String),
      (update_task_stats db T s n).length = db.length) :=
  ⟨update_task_stats_of_absent, load_after_update, load_after_update_other,
   fun db T s n => by rw [update_task_stats, List.length_map]⟩

/-- Witness for C8: a success bump on a one-row table, and the no-op on the
empty table. -/
theorem record_outcome_contract_witness :
    load_script_from_db (update_task_stats [⟨"t", "p", "s", "n0", 3, 4⟩] "t" true "n2") "t" =
      some ⟨"t", "p", "s", "n2", 4, 4⟩ ∧
    update_task_stats [] "t" false "n2" = [] := by
  constructor
  · have := record_outcome_contract.2.1 [⟨"t", "p", "s", "n0", 3, 4⟩] "t" true "n2"
      ⟨"t", "p", "s", "n0", 3, 4⟩ (by decide)
    simpa using this
  · exact record_outcome_contract.1 [] "t" false "n2" rfl

/-- The compression loop never leaves two consecutive `open` actions after
the most recently kept action. -/
theorem compressGo_no_consec (l : List Action) :
    ∀ last, noConsecutiveOpens (last :: compressGo last l) = true := by
  induction l with
  | nil => intro last; rfl
  | cons a as ih =>
    intro last
    by_cases hc : (a.action == "open" && last.action == "open") = true
    · rw [compressGo, if_pos hc]
      exact ih last
    · rw [compressGo, if_neg hc]
      simp only [noConsecutiveOpens, ih a, Bool.and_true, Bool.not_eq_true']
      simp only [Bool.and_eq_true, beq_iff_eq] at hc
      simp only [Bool.and_eq_false_iff, beq_eq_false_iff_ne, ne_eq]
      by_cases hl : last.action = "open"
      · exact Or.inr fun ha => hc ⟨ha, hl⟩
      · exact Or.inl hl

/-- The compressed plan has no two consecutive `open` actions. -/
theorem noConsec_compressOpens (l : List Action) :
    noConsecutiveOpens (compressOpens l) = true := by
  cases l with
  | nil => rfl
  | cons a as => exact compressGo_no_consec as a

/-- Claim C5: with a nonempty base URL the returned plan starts with
`open(baseURL)`; with an empty base URL no leading `open` is seeded (the
plan is exactly the compressed clause translation); no returned plan has two
consecutive `open` actions; and the raw plan open(A), open(B), click(C)
collapses to open(A), click(C). -/
theorem plan_open_invariants :
    (∀ task base : String, base ≠ "" →
      (simple_plan_from_task task base).head? = some ⟨"open", some base, .vNone⟩) ∧
    (∀ task : String, simple_plan_from_task task "" =
      compressOpens ((clauses task).flatMap clause_actions)) ∧
    (∀ task base : String, noConsecutiveOpens (simple_plan_from_task task base) = true) ∧
    (compressOpens [⟨"open", some "A", .vNone⟩, ⟨"open", some "B", .vNone⟩,
        ⟨"click", some "C", .vNone⟩] =
      [⟨"open", some "A", .vNone⟩, ⟨"click", some "C", .vNone⟩]) := by
  refine ⟨?_, ?_, ?_, by decide⟩
  · intro task base hb
    simp [simple_plan_from_task, hb, compressOpens]
  · intro task
    simp [simple_plan_from_task]
  · intro task base
    exact noConsec_compressOpens _

/-- Witness for C5 at a concrete task and base URL. -/
theorem plan_open_invariants_witness :
    (simple_plan_from_task "login then wait" "https://x.test").head? =
      some ⟨"open", some "https://x.test", .vNone⟩ ∧
    noConsecutiveOpens (simple_plan_from_task "login then wait" "https://x.test") = true :=
  ⟨plan_open_invariants.1 "login then wait" "https://x.test" (by decide),
   plan_open_invariants.2.2.1 "login then wait" "https://x.test"⟩

/-- When no delimiter matches at a position, the character there is not a
separator character (a separator run would have matched). -/
theorem matchDelim_none_head (prev : Option Char) (c : Char) (rest : List Char)
    (h : matchDelimLen prev (c :: rest) = none) : isSepChar c = false := by
  cases hsc : isSepChar c with
  | false => rfl
  | true =>
    simp only [matchDelimLen, hsc, if_true] at h
    exact absurd h (by simp)

/-- Every chunk produced by the split scan is free of separator characters,
provided the chunk accumulated so far is. -/
theorem splitGo_chunks_sep_free (cs : List Char) :
    ∀ (prev : Option Char) (skip : Nat) (acc : List Char),
      (∀ c ∈ acc, isSepChar c = false) →
      ∀ g ∈ splitGo prev skip acc cs, ∀ c ∈ g, isSepChar c = false := by
  induction cs with
  | nil =>
    intro prev skip acc hacc g hg c hc
    simp only [splitGo, List.mem_singleton] at hg
    subst hg
    exact hacc c (by simpa using hc)
  | cons a rest ih =>
    intro prev skip acc hacc g hg c hc
    cases skip with
    | succ k =>
      simp only [splitGo] at hg
      exact ih (some a) k acc hacc g hg c hc
    | zero =>
      cases hm : matchDelimLen prev (a :: rest) with
      | some n =>
        simp only [splitGo, hm] at hg
        rcases List.mem_cons.mp hg with hg | hg
        · subst hg
          exact hacc c (by simpa using hc)
        · exact ih (some a) (n - 1) [] (by simp) g hg c hc
      | none =>
        simp only [splitGo, hm] at hg
        refine ih (some a) 0 (a :: acc) ?_ g hg c hc
        intro c' hc'
        rcases List.mem_cons.mp hc' with hc' | hc'
        · rw [hc']
          exact matchDelim_none_head prev a rest hm
        · exact hacc c' hc'

/-- Stripping only removes characters. -/
theorem mem_pyStrip (s : String) (c : Char) (h : c ∈ (pyStrip s).data) : c ∈ s.data := by
  simp only [pyStrip, List.mem_reverse] at h
  have h2 := (List.dropWhile_sublist (l := (s.data.dropWhile isPySpace).reverse)
    (p := isPySpace)).subset h
  rw [List.mem_reverse] at h2
  exact (List.dropWhile_sublist (l := s.data) (p := isPySpace)).subset h2

/-- Claim C6 as amended: the parser splits the task text into clauses on the
characters comma, period and semicolon and on the standalone lowercase words
"and", "then", "after" at word boundaries — matched case-SENSITIVELY, so a
capitalized occurrence does not delimit — dropping empty clauses.  In
particular no produced clause retains a separator character, and the
lowercase words do split. -/
theorem clause_split_case_sensitive :
    (∀ (task s : String), s ∈ clauses task → ∀ c ∈ s.data, isSepChar c = false) ∧
    clauses "x and y then z after w" = ["x", "y", "z", "w"] ∧
    clauses ",,a.b;c" = ["a", "b", "c"] := by
  refine ⟨?_, by decide, by decide⟩
  intro task s hs c hc
  rw [clauses] at hs
  rcases List.mem_filter.mp hs with ⟨hmem, _⟩
  rcases List.mem_map.mp hmem with ⟨t, hts, rfl⟩
  rcases List.mem_map.mp hts with ⟨g, hg, rfl⟩
  exact splitGo_chunks_sep_free task.data none 0 [] (by simp) g hg c (mem_pyStrip _ _ hc)

/-- Witness for the amended C6. -/
theorem clause_split_case_sensitive_witness :
    isSepChar 'a' = false ∧ clauses "a,b" = ["a", "b"] :=
  ⟨clause_split_case_sensitive.1 "a,b" "a" (by decide) 'a' (by decide), by decide⟩

/-- Counterexample to C6 as stated: the delimiter words are matched case
sensitively, so "then" splits the task text but "Then" does not. -/
theorem capitalized_then_does_not_delimit :
    clauses "go west then stop" = ["go west", "stop"] ∧
    clauses "go west Then stop" = ["go west Then stop"] := by decide

/-- Counterexample to C7 as stated: the clause "wait 0" resolves to the wait
kind with remainder "0", whose first integer is 0, yet the appended action
carries value 2, because `extract_number(rem) or 2` treats the integer 0 as
falsy. -/
theorem wait_zero_yields_default :
    find_action_verb "wait 0" = ("wait", "0") ∧
    extract_number "0" = some 0 ∧
    clause_actions "wait 0" = [⟨"wait", none, .vInt 2⟩] := by decide

/-- Claim C7 as amended: for every clause resolving to the wait kind, the
appended action is a wait whose value is the first integer of the clause
remainder when one is present AND nonzero, and the default 2 otherwise (a
leading zero integer falls back to the default through Python `or`). -/
theorem wait_value_from_remainder (s rem : String)
    (h : find_action_verb s = ("wait", rem)) :
    clause_actions s = [⟨"wait", none, .vInt
      (match extract_number rem with
       | some n => if n = 0 then (2 : Int) else (n : Int)
       | none => (2 : Int))⟩] := by
  simp only [clause_actions, h]
  norm_num
  cases he : extract_number rem with
  | none => simp
  | some n =>
    by_cases h0 : n = 0 <;> simp [h0]

/-- Witness for the amended C7: "wait 5 seconds" waits 5, bare "wait" waits
the default 2. -/
theorem wait_value_from_remainder_witness :
    clause_actions "wait 5 seconds" = [⟨"wait", none, .vInt 5⟩] ∧
    clause_actions "wait" = [⟨"wait", none, .vInt 2⟩] := by
  constructor
  · have h := wait_value_from_remainder "wait 5 seconds" "5 seconds" (by decide)
    rw [h]
    decide
  · have h := wait_value_from_remainder "wait" "" (by decide)
    rw [h]
    decide

/-- The decimal digit characters decode back to their value. -/
theorem toNat_ofNat_digit (n : Nat) (h : n < 10) :
    (Char.ofNat (48 + n)).toNat = 48 + n := by
  interval_cases n <;> decide

/-- The decimal rendering round-trips through `digitsVal` when the fuel
covers the number. -/
theorem digitsVal_decDigitsGo (fuel : Nat) :
    ∀ n, n < fuel → digitsVal (decDigitsGo fuel n) = n := by
  induction fuel with
  | zero => intro n h; exact absurd h (Nat.not_lt_zero n)
  | succ f ih =>
    intro n h
    rw [decDigitsGo]
    by_cases h10 : n < 10
    · rw [if_pos h10]
      simp only [digitsVal, List.foldl_cons, List.foldl_nil]
      rw [toNat_ofNat_digit n h10]
      omega
    · rw [if_neg h10]
      have hdiv : n / 10 < f := by
        have h1 : n / 10 < n := Nat.div_lt_self (by omega) (by norm_num)
        omega
      simp only [digitsVal, List.foldl_append, List.foldl_cons, List.foldl_nil]
      have hval := ih (n / 10) hdiv
      rw [digitsVal] at hval
      rw [hval]
      rw [toNat_ofNat_digit (n % 10) (Nat.mod_lt _ (by norm_num))]
      have := Nat.div_add_mod n 10
      omega

/-- Python `str(n)` on naturals is injective. -/
theorem decRepr_inj (m n : Nat) (h : decRepr m = decRepr n) : m = n := by
  have hm := digitsVal_decDigitsGo (m + 1) m (Nat.lt_succ_self m)
  have hn := digitsVal_decDigitsGo (n + 1) n (Nat.lt_succ_self n)
  have hd : decDigitsGo (m + 1) m = decDigitsGo (n + 1) n :=
    congrArg String.data h
  rw [← hm, ← hn, hd]

/-- The time-derived script file names collide exactly on equal
whole-second timestamps. -/
theorem script_file_name_inj (e1 e2 : Nat)
    (h : script_file_name e1 = script_file_name e2) : e1 = e2 := by
  apply decRepr_inj
  have hd := congrArg String.data h
  simp only [script_file_name, String.data_append, List.append_assoc] at hd
  have h1 : (decRepr e1).data ++ ".py".data = (decRepr e2).data ++ ".py".data :=
    List.append_cancel_left hd
  have h2 : (decRepr e1).data = (decRepr e2).data := List.append_cancel_right h1
  exact congrArg String.mk h2

/-- Reading back the file just written. -/
theorem readFile_writeFile_self (fs : ScriptsFs) (n c : String) :
    readFile (writeFile fs n c) n = some c := by
  induction fs with
  | nil => simp [writeFile, readFile]
  | cons hd tl ih =>
    rw [writeFile]
    by_cases h : hd.1 = n
    · rw [if_pos h]
      simp [readFile]
    · rw [if_neg h]
      have hb : (hd.1 == n) = false := by simpa using h
      rw [readFile, List.find?_cons]
      simp only [hb]
      simpa [readFile] using ih

/-- Writing one file leaves every other file untouched. -/
theorem readFile_writeFile_other (fs : ScriptsFs) (n n2 c : String) (h : n2 ≠ n) :
    readFile (writeFile fs n c) n2 = readFile fs n2 := by
  induction fs with
  | nil =>
    simp only [writeFile, readFile, List.find?_cons]
    have hb : (n == n2) = false := by simpa using Ne.symm h
    simp [hb, List.find?_nil]
  | cons hd tl ih =>
    rw [writeFile]
    by_cases hh : hd.1 = n
    · rw [if_pos hh]
      rw [readFile, readFile, List.find?_cons, List.find?_cons]
      have hb : (n == n2) = false := by simpa using Ne.symm h
      have hb2 : (hd.1 == n2) = false := by rw [hh]; exact hb
      simp only [hb, hb2]
    · rw [if_neg hh]
      rw [readFile, readFile, List.find?_cons, List.find?_cons]
      by_cases h2 : hd.1 = n2
      · have hb : (hd.1 == n2) = true := by simpa using h2
        simp only [hb]
      · have hb : (hd.1 == n2) = false := by simpa using h2
        simp only [hb]
        simpa [readFile] using ih

/-- Claim C9 as amended: the saved file name is derived from the
whole-second timestamp, so saves at distinct whole-second timestamps get
distinct names and a later save at a different second never overwrites an
earlier saved program file; only saves within the same whole second share a
name (and then the later one does overwrite, see the counterexample). -/
theorem saves_distinct_seconds_never_overwrite :
    (∀ e1 e2 : Nat, e1 ≠ e2 → script_file_name e1 ≠ script_file_name e2) ∧
    (∀ (db db2 : TasksDb) (fs : ScriptsFs) (T1 S1 T2 S2 : String) (e1 e2 : Nat)
        (n1 n2 : String), e1 ≠ e2 →
      readFile (save_script_to_db db2 (save_script_to_db db fs T1 S1 e1 n1).2 T2 S2 e2 n2).2
        (script_path_of e1) = some S1) := by
  constructor
  · intro e1 e2 hne heq
    exact hne (script_file_name_inj e1 e2 heq)
  · intro db db2 fs T1 S1 T2 S2 e1 e2 n1 n2 hne
    have hpath : script_path_of e1 ≠ script_path_of e2 := by
      intro hp
      apply hne
      apply script_file_name_inj
      have hd := congrArg String.data hp
      simp only [script_path_of, String.data_append] at hd
      exact congrArg String.mk (List.append_cancel_left hd)
    simp only [save_script_to_db]
    rw [readFile_writeFile_other _ _ _ _ hpath]
    exact readFile_writeFile_self fs (script_path_of e1) S1

/-- Witness for the amended C9: two saves one second apart keep both
files. -/
theorem saves_distinct_seconds_never_overwrite_witness :
    readFile (save_script_to_db []
        (save_script_to_db [] [] "task A" "PROGRAM A" 5 "n1").2 "task B" "PROGRAM B" 6 "n2").2
      (script_path_of 5) = some "PROGRAM A" :=
  saves_distinct_seconds_never_overwrite.2 [] [] [] "task A" "PROGRAM A" "task B" "PROGRAM B"
    5 6 "n1" "n2" (by decide)

/-- Counterexample to C9 as stated: two save events in the same whole second
derive the same file name, and the later save overwrites the earlier file —
after saving "PROGRAM A" and then "PROGRAM B" at epoch second 5, the scripts
directory holds a single file containing "PROGRAM B". -/
theorem same_second_save_overwrites :
    (save_script_to_db [] (save_script_to_db [] [] "task A" "PROGRAM A" 5 "n1").2
        "task B" "PROGRAM B" 5 "n2").2 =
      [("generated_scripts/script_5.py", "PROGRAM B")] ∧
    ("PROGRAM A" : String) ≠ "PROGRAM B" := by decide

end JoyboyAI
